import Mathlib

/-!
Verification development for the `tauri-plugin-ipc-audio-tts-ort` crate
(text-to-speech plugin: Kokoro ONNX model plus an eSpeak-style fallback
synthesizer).

The Rust sources are shallowly embedded below:
* `f32` values are modelled by `F32`: a finite rational payload or one of the
  special values NaN / +inf / -inf.  Finite arithmetic is idealized as exact
  rational arithmetic (no rounding, no overflow of finite sums/products);
  decimal literals are modelled by their decimal rational values.
* transcendental library functions (`f32::sin`, `f32::powf`) and external
  effects (the tokenizer's `encode`, the ONNX session `run`) are passed in as
  explicit function parameters, so theorems quantify over them.
* the filesystem is modelled as a membership predicate on paths (component
  lists), relative to the platform cache directory.
-/


/-- Model of an IEEE-754 `f32` value: a finite rational payload, or one of the
special values NaN, +infinity, -infinity. -/
inductive F32 where
  | fin : ℚ → F32
  | nan : F32
  | inf : F32
  | neginf : F32
  deriving DecidableEq, Repr

/-- `f32::is_finite`. -/
def F32.isFinite : F32 → Bool
  | .fin _ => true
  | _ => false

/-- `f32::is_nan`. -/
def F32.isNan : F32 → Bool
  | .nan => true
  | _ => false

/-- `f32::is_infinite`. -/
def F32.isInfinite : F32 → Bool
  | .inf => true
  | .neginf => true
  | _ => false

/-- `f32::abs`. -/
def F32.abs : F32 → F32
  | .fin q => .fin |q|
  | .nan => .nan
  | .inf => .inf
  | .neginf => .inf

/-- `f32` subtraction (finite case idealized as exact). -/
def F32.sub : F32 → F32 → F32
  | .nan, _ => .nan
  | _, .nan => .nan
  | .fin q, .fin r => .fin (q - r)
  | .fin _, .inf => .neginf
  | .fin _, .neginf => .inf
  | .inf, .fin _ => .inf
  | .inf, .inf => .nan
  | .inf, .neginf => .inf
  | .neginf, .fin _ => .neginf
  | .neginf, .inf => .neginf
  | .neginf, .neginf => .nan

/-- `f32` multiplication (finite case idealized as exact; `0 * inf = NaN`
as in IEEE-754). -/
def F32.mul : F32 → F32 → F32
  | .nan, _ => .nan
  | _, .nan => .nan
  | .fin q, .fin r => .fin (q * r)
  | .fin q, .inf => if q = 0 then .nan else if 0 < q then .inf else .neginf
  | .fin q, .neginf => if q = 0 then .nan else if 0 < q then .neginf else .inf
  | .inf, .fin r => if r = 0 then .nan else if 0 < r then .inf else .neginf
  | .neginf, .fin r => if r = 0 then .nan else if 0 < r then .neginf else .inf
  | .inf, .inf => .inf
  | .inf, .neginf => .neginf
  | .neginf, .inf => .neginf
  | .neginf, .neginf => .inf

/-- `f32` division (finite case idealized as exact; `x / 0` gives a signed
infinity for `x ≠ 0` and NaN for `x = 0`, signs of zero are not modelled). -/
def F32.div : F32 → F32 → F32
  | .nan, _ => .nan
  | _, .nan => .nan
  | .fin q, .fin r =>
      if r = 0 then (if q = 0 then .nan else if 0 < q then .inf else .neginf)
      else .fin (q / r)
  | .fin _, .inf => .fin 0
  | .fin _, .neginf => .fin 0
  | .inf, .fin r => if r < 0 then .neginf else .inf
  | .neginf, .fin r => if r < 0 then .inf else .neginf
  | .inf, _ => .nan
  | .neginf, _ => .nan

/-- IEEE comparison `x ≤ c` against a finite constant: false whenever `x` is
NaN. -/
def F32.leQ : F32 → ℚ → Bool
  | .fin q, c => decide (q ≤ c)
  | .nan, _ => false
  | .inf, _ => false
  | .neginf, _ => true

/-- IEEE comparison `x > c` against a finite constant: false whenever `x` is
NaN. -/
def F32.gtQ : F32 → ℚ → Bool
  | .fin q, c => decide (c < q)
  | .nan, _ => false
  | .inf, _ => true
  | .neginf, _ => false

/-- Rust `f32::clamp(-1.0, 1.0)`: propagates NaN, sends the infinities to the
nearer bound, clamps finite values. -/
def F32.clamp11 : F32 → F32
  | .fin q => .fin (max (-1) (min 1 q))
  | .nan => .nan
  | .inf => .fin 1
  | .neginf => .fin (-1)

/-- Rust `as usize` cast from `f32`: truncation toward zero, saturating at the
`usize` bounds, NaN mapped to zero. -/
def F32.toUsize : F32 → ℕ
  | .fin q => if q ≤ 0 then 0 else min (Int.toNat ⌊q⌋) (2 ^ 64 - 1)
  | .nan => 0
  | .inf => 2 ^ 64 - 1
  | .neginf => 0

/-- Rendering of an `f32` used inside formatted error messages. -/
def F32.describe : F32 → String
  | .fin q => toString q
  | .nan => "NaN"
  | .inf => "inf"
  | .neginf => "-inf"

/-- `SynthesizeOptions` from `lib.rs`: optional pitch, speed and volume. -/
structure SynthesizeOptions where
  pitch : Option F32
  speed : Option F32
  volume : Option F32
  deriving DecidableEq, Repr

/-- Rust `char::is_whitespace`: the Unicode `White_Space` property. -/
def rustIsWhitespace (c : Char) : Bool :=
  let n := c.toNat
  decide ((9 ≤ n ∧ n ≤ 13) ∨ n = 32 ∨ n = 133 ∨ n = 160 ∨ n = 5760 ∨
    (8192 ≤ n ∧ n ≤ 8202) ∨ n = 8232 ∨ n = 8233 ∨ n = 8239 ∨ n = 8287 ∨ n = 12288)

/-- Rust `str::trim`: strip leading and trailing Unicode whitespace. -/
def trimRust (s : String) : String :=
  String.mk (((s.data.dropWhile rustIsWhitespace).reverse.dropWhile rustIsWhitespace).reverse)

/-- The exact rational value of the `f32` constant `std::f32::consts::PI`. -/
def pi32 : ℚ := 13176795 / 4194304

/-- `synthesize_espeak` from `models.rs` (lines 417-434): the fallback
synthesizer.  Generates a 440 Hz sine placeholder whose length is derived from
the byte length of the text; applies a linear volume factor; performs no
input validation and no clamping.  `sinf` models `f32::sin`, `pow10` models
`10f32.powf`; the voice identifier is ignored by the source (binder `_voice_id`). -/
def synthesizeEspeak (sinf : ℚ → F32) (pow10 : F32 → F32)
    (text : String) (_voiceId : String) (options : Option SynthesizeOptions) :
    Except String (List F32) :=
  let sampleRate : ℚ := 22050
  let duration : ℚ := (text.utf8ByteSize : ℚ) * (1 / 10)
  let numSamples : ℕ := (F32.fin (sampleRate * duration)).toUsize
  let volume : F32 := (options.bind (fun o => o.volume)).getD (.fin 0)
  let volumeFactor : F32 := pow10 (volume.div (.fin 20))
  let audio : List F32 := (List.range numSamples).map (fun (i : ℕ) =>
    let t : ℚ := (i : ℚ) / sampleRate
    ((sinf (2 * pi32 * 440 * t)).mul (.fin (3 / 10))).mul volumeFactor)
  Except.ok audio

/-- Generic JSON document tree (`serde_json::Value`).  Parsed maps have unique
keys; numbers are idealized as rationals. -/
inductive Json where
  | null : Json
  | bool : Bool → Json
  | num : ℚ → Json
  | str : String → Json
  | arr : List Json → Json
  | obj : List (String × Json) → Json

/-- `Value::get(key)`: key lookup, defined only on objects. -/
def Json.get : Json → String → Option Json
  | .obj fields, key => fields.lookup key
  | _, _ => none

/-- `Map::remove(key)` through `as_object_mut`: drop the binding for `key`
(identity on non-objects; the source only reaches this after a successful
`get`, so the receiver is an object there). -/
def Json.removeKey : Json → String → Json
  | .obj fields, key => .obj (fields.filter (fun kv => !(kv.1 == key)))
  | j, _ => j

/-- In-place overwrite `*value_at_key = v` through `get_mut` (identity on
non-objects and absent keys). -/
def Json.setKey : Json → String → Json → Json
  | .obj fields, key, v => .obj (fields.map (fun kv => if kv.1 == key then (kv.1, v) else kv))
  | j, _, _ => j

/-- The filter predicate of `load_tokenizer_from_file_with_fallback`: keep a
processor unless its `type` tag is the string `"ByteFallback"` (processors with
a missing or non-string `type` are kept). -/
def keepProcessor (p : Json) : Bool :=
  match p.get "type" with
  | some (.str t) => !(t == "ByteFallback")
  | _ => true

/-- Whether a post-processor value is tagged directly as `ByteFallback`
(`post_processor.get("type").and_then(as_str) == Some("ByteFallback")`). -/
def isDirectByteFallback (pp : Json) : Bool :=
  match pp.get "type" with
  | some (.str t) => t == "ByteFallback"
  | _ => false

/-- The structural repair applied to a parsed tokenizer document by
`load_tokenizer_from_file_with_fallback` (`models.rs` lines 480-514): filter
`ByteFallback` entries out of `post_processor.processors`, removing or
simplifying the `post_processor` according to how many processors survive;
a direct `ByteFallback` post-processor is removed outright. -/
def repairFile (doc : Json) : Json :=
  match doc.get "post_processor" with
  | none => doc
  | some pp =>
    match pp.get "processors" with
    | some procs =>
      match procs with
      | .arr xs =>
        let filtered := xs.filter keepProcessor
        match filtered with
        | [] => doc.removeKey "post_processor"
        | [single] => doc.setKey "post_processor" single
        | _ => doc.setKey "post_processor" (pp.setKey "processors" (.arr filtered))
      | _ => doc
    | none =>
      if isDirectByteFallback pp then doc.removeKey "post_processor" else doc

/-- The structural repair applied to a parsed tokenizer document by
`load_tokenizer_from_cache_with_fallback` (`models.rs` lines 557-560): remove
the `post_processor` field entirely whenever it is present. -/
def repairCache (doc : Json) : Json :=
  match doc.get "post_processor" with
  | some _ => doc.removeKey "post_processor"
  | none => doc

/-- A concrete parsed tokenizer document on which the two repair variants
disagree: the post-processor is neither a `ByteFallback` nor a `Sequence`. -/
def c3Doc : Json :=
  .obj [("post_processor", .obj [("type", .str "TemplateProcessing")])]

/-- A filesystem path relative to the platform cache directory, as a list of
components. -/
abbrev CachePath := List String

/-- The four required asset files (`models.rs` lines 685 and 803). -/
def requiredFiles : List String :=
  ["model.onnx", "config.json", "tokenizer.json", "tokenizer_config.json"]

/-- `model_id.replace('/', "_")`. -/
def sanitizeId (id : String) : String :=
  id.map (fun c => if c = '/' then '_' else c)

/-- Current (namespaced) layout root:
`huggingface/transformers/kokoro/<model-id-with-slashes-replaced>`. -/
def newRoot (id : String) : CachePath :=
  ["huggingface", "transformers", "kokoro", sanitizeId id]

/-- Legacy (flat) layout root: `huggingface/transformers`. -/
def legacyRoot : CachePath :=
  ["huggingface", "transformers"]

/-- `is_model_installed` from `models.rs` (lines 801-847): all four required
files under the current layout (checked first, returning early), else all four
under the legacy layout.  `fs` is the file-existence predicate; the platform
cache directory is assumed resolvable (the source returns `false` otherwise). -/
def isModelInstalled (fs : CachePath → Bool) (id : String) : Bool :=
  let newOk := requiredFiles.all (fun name => fs (newRoot id ++ [name]))
  if newOk then true
  else
    let legacyOk := requiredFiles.all (fun name => fs (legacyRoot ++ [name]))
    legacyOk

/-- The file paths removed by `clear_model_cache`: the four required files
under the current-layout root and under the legacy root. -/
def clearedPaths (id : String) : List CachePath :=
  requiredFiles.map (fun name => newRoot id ++ [name]) ++
    requiredFiles.map (fun name => legacyRoot ++ [name])

/-- Effect of `clear_model_cache` from `models.rs` (lines 669-713) on the
file-existence predicate: each of the eight known asset paths is removed
(removal of an existing file is modelled as succeeding; a missing file is
skipped, with the same net effect).  The trailing empty-directory removal does
not affect file existence. -/
def clearCacheFs (fs : CachePath → Bool) (id : String) : CachePath → Bool :=
  fun p => fs p && !(decide (p ∈ clearedPaths id))

/-- A loaded model value in the registry (`TtsModel`): the eSpeak fallback or
an ONNX model; the ONNX payload (session, config, voices, tokenizer) is
abstracted by a tag. -/
inductive TtsModelE where
  | espeak : TtsModelE
  | onnx : ℕ → TtsModelE
  deriving DecidableEq, Repr

/-- Outcome of the bounded-time network load (`load_onnx_model` under
`tokio::time::timeout`). -/
inductive NetResult where
  | ok : TtsModelE → NetResult
  | err : NetResult
  | timeout : NetResult
  deriving DecidableEq, Repr

/-- External environment of `load_model`: the cache-only loader and the
network loader, as oracles per model identifier. -/
structure LoadEnv where
  cacheLoad : String → Option TtsModelE
  netLoad : String → NetResult

/-- Process-wide TTS state (`TtsState` in `lib.rs`) together with the cache
filesystem it manipulates. -/
structure SysState where
  loadedModels : List (String × TtsModelE)
  currentModel : Option String
  fs : CachePath → Bool

/-- `HashMap::insert` followed by setting `current_model` (`lib.rs` lines
208-212).  The model list keeps one binding per key. -/
def insertModel (s : SysState) (id : String) (m : TtsModelE) : SysState :=
  { s with
    loadedModels := (id, m) :: s.loadedModels.filter (fun kv => !(kv.1 == id))
    currentModel := some id }

/-- Result of one `load_model` call: the command result, the state afterwards,
and how many network/cache load operations were issued during the call. -/
structure LoadResult where
  res : Except String Unit
  st : SysState
  loads : ℕ

/-- `load_model` from `lib.rs` (lines 120-216): return immediately if the
identifier is already registered; otherwise construct the eSpeak fallback, or
load from cache when installed (clearing the cache and re-downloading with a
timeout when the cache load fails), or download directly when not installed.
Each cache-load attempt and each network download counts as one issued load. -/
def loadModel (env : LoadEnv) (s : SysState) (id : String) : LoadResult :=
  match s.loadedModels.lookup id with
  | some _ => ⟨.ok (), s, 0⟩
  | none =>
    if id = "espeak-ng" then
      ⟨.ok (), insertModel s id .espeak, 0⟩
    else if isModelInstalled s.fs id then
      match env.cacheLoad id with
      | some m => ⟨.ok (), insertModel s id m, 1⟩
      | none =>
        let s2 : SysState := { s with fs := clearCacheFs s.fs id }
        match env.netLoad id with
        | .ok m => ⟨.ok (), insertModel s2 id m, 2⟩
        | .err => ⟨.error "Model could not be loaded but voices are available", s2, 2⟩
        | .timeout => ⟨.error "Model download timed out but voices are available", s2, 2⟩
    else
      match env.netLoad id with
      | .ok m => ⟨.ok (), insertModel s id m, 1⟩
      | _ => ⟨.error "Failed to load model", s, 1⟩

/-- Environment in which every load attempt fails, for the C7 counterexample. -/
def envAllFail : LoadEnv :=
  ⟨fun _ => none, fun _ => .err⟩

/-- Empty startup state over an empty cache. -/
def sysState0 : SysState :=
  ⟨[], none, fun _ => false⟩

/-- A value in the ONNX session output collection: an `f32` tensor (flattened)
or a value of some other element type, on which `try_extract_tensor::<f32>`
fails. -/
inductive OrtValue where
  | tensorF32 : List F32 → OrtValue
  | other : OrtValue
  deriving DecidableEq, Repr

/-- `try_extract_tensor::<f32>` followed by `to_vec` (`models.rs` lines
333-337). -/
def extractTensorF32 (v : OrtValue) : Except String (List F32) :=
  match v with
  | .tensorF32 data => .ok data
  | .other => .error "Failed to extract audio tensor"

/-- The error message built when no conventional output name is present,
enumerating the output names actually available (`models.rs` lines 330-331). -/
def noAudioFoundMsg (availableNames : List String) : String :=
  "No audio output found in model. Available outputs: " ++
    String.intercalate ", " availableNames

/-- The output-name extraction of `run_inference_and_extract` (`models.rs`
lines 320-338): probe `audio`, then `output`, `waveform`, `mel`, `logits`,
taking the first name present; fail with a message listing the available
output names when none matches. -/
def extractAudioOutput (outputs : List (String × OrtValue)) : Except String (List F32) :=
  match outputs.lookup "audio" with
  | some v => extractTensorF32 v
  | none =>
    match outputs.lookup "output" with
    | some v => extractTensorF32 v
    | none =>
      match outputs.lookup "waveform" with
      | some v => extractTensorF32 v
      | none =>
        match outputs.lookup "mel" with
        | some v => extractTensorF32 v
        | none =>
          match outputs.lookup "logits" with
          | some v => extractTensorF32 v
          | none => .error (noAudioFoundMsg (outputs.map Prod.fst))

/-- The per-voice base scalar of `get_style_vector` (`models.rs` lines
348-373); unknown voices default to `0.5`. -/
def voiceBaseValue : String → ℚ
  | "af_jessica" => 1 / 10
  | "af_bella" => 2 / 10
  | "af_sarah" => 3 / 10
  | "af_sky" => 4 / 10
  | "af_kore" => 5 / 10
  | "af_nicole" => 6 / 10
  | "af_nova" => 7 / 10
  | "af_river" => 8 / 10
  | "am_adam" => 9 / 10
  | "am_echo" => 1
  | "am_eric" => 15 / 100
  | "am_fenrir" => 25 / 100
  | "am_liam" => 35 / 100
  | "am_michael" => 45 / 100
  | "am_onyx" => 55 / 100
  | "am_puck" => 65 / 100
  | "am_santa" => 75 / 100
  | "jf_alpha" => 85 / 100
  | "jm_kumo" => 95 / 100
  | "zf_xiaobei" => 5 / 10
  | "zm_yunjian" => 6 / 10
  | "af" => 5 / 10
  | "am" => 8 / 10
  | _ => 5 / 10

/-- `get_style_vector` (`models.rs` lines 342-382): a 256-entry linear ramp
scaled by the per-voice base value, `style[i] = base * (0.5 + 0.5 * i/255)`.
The source wraps this in `Ok`; it never fails. -/
def getStyleVector (voiceId : String) : List F32 :=
  (List.range 256).map (fun (i : ℕ) =>
    let normalizedI : ℚ := (i : ℚ) / 255
    .fin (voiceBaseValue voiceId * (1 / 2 + 1 / 2 * normalizedI)))

/-- The sanitize step of `synthesize` (`models.rs` lines 214-220): non-finite
samples are replaced by silence, finite samples are clamped to `[-1, 1]`. -/
def sanitizeSample (s : F32) : F32 :=
  if s.isNan || s.isInfinite then .fin 0 else s.clamp11

/-- `apply_audio_modifications` (`models.rs` lines 384-414): the inline audio
post-processor.  Volume: when the dB magnitude exceeds 0.01, multiply by the
linear gain `10^(dB/20)` (`pow10` models `10f32.powf`) and re-clamp.  Speed:
when the speed differs from 1 by more than 0.01, nearest-neighbor resampling
at ratio `speed`, skipping source indices that fall outside the buffer.
Pitch is not implemented. -/
def applyAudioModifications (pow10 : F32 → F32) (samples : List F32)
    (opts : SynthesizeOptions) : List F32 :=
  let afterVolume : List F32 :=
    match opts.volume with
    | some volumeDb =>
      if (volumeDb.abs).gtQ (1 / 100) then
        let gain := pow10 (volumeDb.div (.fin 20))
        samples.map (fun s => (s.mul gain).clamp11)
      else samples
    | none => samples
  match opts.speed with
  | some speed =>
    if ((speed.sub (.fin 1)).abs).gtQ (1 / 100) then
      let newLen : ℕ := ((F32.fin (afterVolume.length : ℚ)).div speed).toUsize
      (List.range newLen).filterMap (fun (i : ℕ) =>
        let srcIndex : ℕ := ((F32.fin (i : ℚ)).mul speed).toUsize
        if srcIndex < afterVolume.length then afterVolume[srcIndex]? else none)
    else afterVolume
  | none => afterVolume

/-- The speed actually used by `try_kokoro_inference`:
`options.and_then(|o| o.speed).unwrap_or(1.0)`. -/
def effectiveSpeed (options : Option SynthesizeOptions) : F32 :=
  (options.bind (fun o => o.speed)).getD (.fin 1)

/-- Whether the speed step of `apply_audio_modifications` fires: a speed
option whose distance from 1 exceeds the 0.01 epsilon. -/
def optionSpeedChangeRequested (options : Option SynthesizeOptions) : Bool :=
  match options with
  | some o =>
    match o.speed with
    | some sp => ((sp.sub (.fin 1)).abs).gtQ (1 / 100)
    | none => false
  | none => false

/-- `try_kokoro_inference` (`models.rs` lines 240-318), generalized over the
style vector it validates (the source computes it via `get_style_vector`, see
`tryKokoroInference`).  Validates speed (finite, in `(0, 3]`), non-emptiness
of the token list, the 256-entry shape and finiteness of the style vector;
then runs inference (`infer` models session `run` plus output extraction) and
validates that the output is non-empty and entirely finite. -/
def tryKokoroInferenceWith (infer : List ℤ → List F32 → F32 → Except String (List F32))
    (tokens : List ℤ) (style : List F32) (options : Option SynthesizeOptions) :
    Except String (List F32) :=
  if !(effectiveSpeed options).isFinite || (effectiveSpeed options).leQ 0 ||
      (effectiveSpeed options).gtQ 3 then
    .error ("Speed must be finite and between 0.0 and 3.0, got " ++
      (effectiveSpeed options).describe)
  else if tokens.isEmpty then
    .error "Empty token sequence"
  else if !(style.length == 256) then
    .error ("Style vector must be 256 dimensions, got " ++ toString style.length)
  else
    match style.findIdx? (fun v => !v.isFinite) with
    | some i => .error ("Style vector contains non-finite value at index " ++ toString i)
    | none =>
      match infer tokens style (effectiveSpeed options) with
      | .ok audio =>
        if audio.isEmpty then .error "Model produced empty audio output"
        else if 0 < (audio.filter (fun s => !s.isFinite)).length then
          .error ("Model produced " ++ toString (audio.filter (fun s => !s.isFinite)).length ++
            " invalid audio samples")
        else .ok audio
      | .error e => .error ("Kokoro inference failed: " ++ e)

/-- `try_kokoro_inference` as called by `synthesize`: the style vector comes
from `get_style_vector` on the requested voice. -/
def tryKokoroInference (infer : List ℤ → List F32 → F32 → Except String (List F32))
    (voiceId : String) (tokens : List ℤ) (options : Option SynthesizeOptions) :
    Except String (List F32) :=
  tryKokoroInferenceWith infer tokens (getStyleVector voiceId) options

/-- `OnnxTtsModel::synthesize` (`models.rs` lines 168-236): validate the text
(non-empty after trimming, at most 1000 bytes), tokenize (`tokenize` models
`Tokenizer::encode` on the trimmed text, returning the `u32` token ids),
validate the token sequence (non-empty, at most 512 tokens, every value in
`[0, 100000]` after the `i64` cast), run Kokoro inference, re-validate
non-emptiness, sanitize every sample, and apply the audio modifications when
options are present. -/
def onnxSynthesize (tokenize : String → Option (List ℕ))
    (infer : List ℤ → List F32 → F32 → Except String (List F32))
    (pow10 : F32 → F32)
    (text : String) (voiceId : String) (options : Option SynthesizeOptions) :
    Except String (List F32) :=
  if (trimRust text).isEmpty then .error "Text input cannot be empty"
  else if 1000 < text.utf8ByteSize then .error "Text too long (max 1000 characters)"
  else
    match tokenize (trimRust text) with
    | none => .error "Tokenization failed"
    | some tokens =>
      if tokens.isEmpty then .error "Tokenization produced no tokens"
      else if 512 < tokens.length then .error "Tokenized sequence too long (max 512 tokens)"
      else
        match (tokens.map (fun t => (t : ℤ))).find?
            (fun t => decide (t < 0) || decide (100000 < t)) with
        | some t => .error ("Invalid token value: " ++ toString t)
        | none =>
          match tryKokoroInference infer voiceId (tokens.map (fun t => (t : ℤ))) options with
          | .error e => .error e
          | .ok audioRaw =>
            if audioRaw.isEmpty then .error "Model produced no audio samples"
            else
              .ok (match options with
                | some opts => applyAudioModifications pow10 (audioRaw.map sanitizeSample) opts
                | none => audioRaw.map sanitizeSample)

/-- A sample is finite and within `[-1, 1]`. -/
def inRange11 (s : F32) : Prop :=
  ∃ q : ℚ, s = .fin q ∧ -1 ≤ q ∧ q ≤ 1

/-- Claim C10: the fallback synthesizer's output depends only on the byte
length of the text and on the volume option — not on the text contents, the
voice identifier, or the pitch and speed options. -/
theorem espeak_output_determined_by_length_and_volume
    (sinf : ℚ → F32) (pow10 : F32 → F32)
    (text1 text2 voice1 voice2 : String)
    (options1 options2 : Option SynthesizeOptions)
    (hlen : text1.utf8ByteSize = text2.utf8ByteSize)
    (hvol : options1.bind (fun o => o.volume) = options2.bind (fun o => o.volume)) :
    synthesizeEspeak sinf pow10 text1 voice1 options1 =
      synthesizeEspeak sinf pow10 text2 voice2 options2 := by
  unfold synthesizeEspeak
  rw [hlen, hvol]

/-- Witness for C10 at concrete inputs: same byte length, same (absent) volume,
different texts, voices, pitch and speed. -/
theorem espeak_output_determined_by_length_and_volume_witness :
    synthesizeEspeak (fun _ => F32.fin 0) (fun _ => F32.fin 1) "ab" "espeak-en" none =
      synthesizeEspeak (fun _ => F32.fin 0) (fun _ => F32.fin 1) "cd" "espeak-es"
        (some ⟨some (F32.fin 1), some (F32.fin 2), none⟩) :=
  espeak_output_determined_by_length_and_volume
    (fun _ => F32.fin 0) (fun _ => F32.fin 1) "ab" "cd" "espeak-en" "espeak-es"
    none (some ⟨some (F32.fin 1), some (F32.fin 2), none⟩) rfl rfl

/-- Counterexample to claim C1 as stated: on the fallback synthesizer path,
`synthesize` with empty text succeeds and returns an *empty* sample buffer,
contradicting "the returned sample buffer is non-empty". -/
theorem espeak_empty_text_returns_ok_empty_buffer :
    synthesizeEspeak (fun _ => F32.fin 0) (fun _ => F32.fin 1) "" "espeak-en" none =
      Except.ok ([] : List F32) := by with_unfolding_all rfl

/-- Counterexample to claim C2 as stated: on the fallback synthesizer path,
`synthesize` with text of 1001 characters succeeds (no "too long"
`ValidationError` is returned, and empty text is likewise accepted). -/
theorem espeak_long_text_not_rejected :
    (synthesizeEspeak (fun _ => F32.fin 0) (fun _ => F32.fin 1)
      (String.mk (List.replicate 1001 'a')) "espeak-en" none).isOk = true := by
  with_unfolding_all rfl

/-- Counterexample to claim C3 as stated: the cache-path repair and the
fresh-file repair are different transformations.  On `c3Doc` the fresh-file
repair leaves the document unchanged while the cache-path repair deletes the
`post_processor` field. -/
theorem repair_variants_disagree :
    repairFile c3Doc ≠ repairCache c3Doc := by
  have h1 : repairFile c3Doc = c3Doc := by with_unfolding_all rfl
  have h2 : repairCache c3Doc = Json.obj [] := by with_unfolding_all rfl
  rw [h1, h2]
  simp [c3Doc]

/-- Claim C3 amended: the cache-path repair always removes the whole
`post_processor` field, so the two variants produce the same patched document
exactly in the cases where the fresh-file repair also removes it (or the field
is absent): (1) no `post_processor` field; (2) a direct `ByteFallback`
post-processor without a `processors` list; (3) a `processors` array whose
entries are all `ByteFallback`-typed. -/
theorem repair_variants_agree_on_bytefallback_documents (doc : Json) :
    (doc.get "post_processor" = none → repairFile doc = repairCache doc) ∧
    (∀ pp, doc.get "post_processor" = some pp → pp.get "processors" = none →
      isDirectByteFallback pp = true → repairFile doc = repairCache doc) ∧
    (∀ pp xs, doc.get "post_processor" = some pp → pp.get "processors" = some (.arr xs) →
      (∀ p ∈ xs, keepProcessor p = false) → repairFile doc = repairCache doc) := by
  refine ⟨?_, ?_, ?_⟩
  · intro h
    simp only [repairFile, repairCache, h]
  · intro pp hpp hprocs hbf
    simp only [repairFile, repairCache, hpp, hprocs, hbf, if_true]
  · intro pp xs hpp hprocs hall
    have hfilter : xs.filter keepProcessor = [] := List.filter_eq_nil_iff.mpr (by
      intro p hp
      simp [hall p hp])
    simp only [repairFile, repairCache, hpp, hprocs, hfilter]

/-- Witness for the amended C3 at a concrete document whose `post_processor`
is a direct `ByteFallback`: both repairs remove it. -/
theorem repair_variants_agree_witness :
    repairFile (Json.obj [("post_processor", Json.obj [("type", Json.str "ByteFallback")])]) =
      repairCache (Json.obj [("post_processor", Json.obj [("type", Json.str "ByteFallback")])]) :=
  (repair_variants_agree_on_bytefallback_documents _).2.1
    (Json.obj [("type", Json.str "ByteFallback")]) (by with_unfolding_all rfl)
    (by with_unfolding_all rfl) (by with_unfolding_all rfl)

/-- Claim C4: `is_installed(id)` is true iff all four required files exist
under the current layout or all four exist under the legacy layout; partial
presence in either layout does not count. -/
theorem isModelInstalled_iff (fs : CachePath → Bool) (id : String) :
    isModelInstalled fs id = true ↔
      (∀ name ∈ requiredFiles, fs (newRoot id ++ [name]) = true) ∨
      (∀ name ∈ requiredFiles, fs (legacyRoot ++ [name]) = true) := by
  simp only [isModelInstalled]
  by_cases hnew : requiredFiles.all (fun name => fs (newRoot id ++ [name])) = true
  · simp only [hnew, if_true, true_iff]
    exact Or.inl (List.all_eq_true.mp hnew)
  · simp only [Bool.not_eq_true] at hnew
    simp only [hnew, Bool.false_eq_true, if_false]
    constructor
    · intro hleg
      exact Or.inr (List.all_eq_true.mp hleg)
    · intro h
      rcases h with h | h
      · exact absurd (List.all_eq_true.mpr h) (by simp [hnew])
      · exact List.all_eq_true.mpr h

/-- Witness for C4: a filesystem containing every path makes the model
installed. -/
theorem isModelInstalled_iff_witness :
    isModelInstalled (fun _ => true) "hexgrad/Kokoro-82M" = true :=
  (isModelInstalled_iff (fun _ => true) "hexgrad/Kokoro-82M").mpr
    (Or.inl (fun _name _ => rfl))

/-- Claim C5: after `clear_model_cache(id)`, `is_model_installed(id)` is false
for every prior filesystem state — both layout roots lose their required
files, so neither layout is complete. -/
theorem clear_cache_then_not_installed (fs : CachePath → Bool) (id : String) :
    isModelInstalled (clearCacheFs fs id) id = false := by
  have hmem_new : (newRoot id ++ ["model.onnx"]) ∈ clearedPaths id := by
    simp [clearedPaths, requiredFiles]
  have hmem_leg : (legacyRoot ++ ["model.onnx"]) ∈ clearedPaths id := by
    simp [clearedPaths, requiredFiles]
  have hnew : clearCacheFs fs id (newRoot id ++ ["model.onnx"]) = false := by
    simp [clearCacheFs, hmem_new]
  have hleg : clearCacheFs fs id (legacyRoot ++ ["model.onnx"]) = false := by
    simp [clearCacheFs, hmem_leg]
  simp only [isModelInstalled]
  have hnewAll :
      requiredFiles.all (fun name => clearCacheFs fs id (newRoot id ++ [name])) = false := by
    apply Bool.eq_false_iff.mpr
    intro hall
    have := List.all_eq_true.mp hall "model.onnx" (by simp [requiredFiles])
    rw [hnew] at this
    exact Bool.false_ne_true this
  have hlegAll :
      requiredFiles.all (fun name => clearCacheFs fs id (legacyRoot ++ [name])) = false := by
    apply Bool.eq_false_iff.mpr
    intro hall
    have := List.all_eq_true.mp hall "model.onnx" (by simp [requiredFiles])
    rw [hleg] at this
    exact Bool.false_ne_true this
  simp [hnewAll, hlegAll]

/-- Counterexample to claim C7 as stated: when the first `load(id)` fails (the
model is not installed and the download fails), the second call issues a
*second* network load — two loads across the two calls — and the registry holds
no entry for the identifier afterwards, not exactly one. -/
theorem load_twice_not_idempotent_on_failure :
    (loadModel envAllFail sysState0 "hexgrad/Kokoro-82M").loads +
      (loadModel envAllFail
        (loadModel envAllFail sysState0 "hexgrad/Kokoro-82M").st "hexgrad/Kokoro-82M").loads = 2 ∧
    ((loadModel envAllFail
        (loadModel envAllFail sysState0 "hexgrad/Kokoro-82M").st "hexgrad/Kokoro-82M").st.loadedModels.filter
      (fun kv => kv.1 == "hexgrad/Kokoro-82M")).length = 0 := by
  constructor
  · with_unfolding_all rfl
  · with_unfolding_all rfl

theorem lookup_insertModel (s : SysState) (id : String) (m : TtsModelE) :
    (insertModel s id m).loadedModels.lookup id = some m := by
  simp [insertModel, List.lookup]

theorem countKey_insertModel (s : SysState) (id : String) (m : TtsModelE) :
    ((insertModel s id m).loadedModels.filter (fun kv => kv.1 == id)).length = 1 := by
  have h0 : (s.loadedModels.filter (fun kv => !(kv.1 == id))).filter
      (fun kv => kv.1 == id) = [] := by
    rw [List.filter_eq_nil_iff]
    intro kv hkv
    have h1 := (List.mem_filter.mp hkv).2
    simp only [Bool.not_eq_true'] at h1
    simp [h1]
  simp [insertModel, List.filter_cons, h0]

theorem one_le_countKey_of_lookup (l : List (String × TtsModelE)) (id : String) (m : TtsModelE)
    (h : l.lookup id = some m) :
    1 ≤ (l.filter (fun kv => kv.1 == id)).length := by
  induction l with
  | nil => simp [List.lookup] at h
  | cons kv tl ih =>
    rcases kv with ⟨k, v⟩
    by_cases hk : k = id
    · subst hk
      simp [List.filter_cons]
    · have hbeq : (id == k) = false := by
        rw [beq_eq_false_iff_ne]
        intro heq
        exact hk heq.symm
      have hbeq2 : (k == id) = false := by
        simp [beq_eq_false_iff_ne, hk]
      rw [List.lookup] at h
      rw [hbeq] at h
      simp only [List.filter_cons, hbeq2, Bool.false_eq_true, if_false]
      exact ih h

theorem loadModel_after_insert (env : LoadEnv) (s : SysState) (id : String) (m : TtsModelE) :
    loadModel env (insertModel s id m) id = ⟨.ok (), insertModel s id m, 0⟩ := by
  unfold loadModel
  rw [lookup_insertModel]

/-- Claim C7 amended: provided the first `load(id)` call succeeds (and the
registry is well-formed, holding at most one binding for `id`), a second call
without `force_reload` detects the existing entry and returns immediately: it
issues no network/cache load, leaves the state unchanged, and the registry
holds exactly one entry for `id`.  A single successful call may itself issue
up to two loads (a failed cache load followed by the network download). -/
theorem load_idempotent_after_success (env : LoadEnv) (s0 : SysState) (id : String)
    (hwf : (s0.loadedModels.filter (fun kv => kv.1 == id)).length ≤ 1)
    (hok : (loadModel env s0 id).res = .ok ()) :
    (loadModel env (loadModel env s0 id).st id).res = .ok () ∧
    (loadModel env (loadModel env s0 id).st id).loads = 0 ∧
    (loadModel env (loadModel env s0 id).st id).st = (loadModel env s0 id).st ∧
    ((loadModel env s0 id).st.loadedModels.filter (fun kv => kv.1 == id)).length = 1 ∧
    (loadModel env s0 id).loads ≤ 2 := by
  cases hl : s0.loadedModels.lookup id with
  | some m =>
    have hr1 : loadModel env s0 id = ⟨.ok (), s0, 0⟩ := by
      unfold loadModel
      rw [hl]
    have hcount : (s0.loadedModels.filter (fun kv => kv.1 == id)).length = 1 :=
      le_antisymm hwf (one_le_countKey_of_lookup _ _ _ hl)
    simp [hr1, hcount]
  | none =>
    by_cases hesp : id = "espeak-ng"
    · have hr1 : loadModel env s0 id = ⟨.ok (), insertModel s0 id .espeak, 0⟩ := by
        unfold loadModel
        rw [hl]
        simp [hesp]
      simp [hr1, loadModel_after_insert, countKey_insertModel]
    · by_cases hinst : isModelInstalled s0.fs id = true
      · cases hc : env.cacheLoad id with
        | some m =>
          have hr1 : loadModel env s0 id = ⟨.ok (), insertModel s0 id m, 1⟩ := by
            unfold loadModel
            rw [hl]
            simp [hesp, hinst, hc]
          simp [hr1, loadModel_after_insert, countKey_insertModel]
        | none =>
          cases hn : env.netLoad id with
          | ok m =>
            have hr1 : loadModel env s0 id =
                ⟨.ok (), insertModel { s0 with fs := clearCacheFs s0.fs id } id m, 2⟩ := by
              unfold loadModel
              rw [hl]
              simp [hesp, hinst, hc, hn]
            simp [hr1, loadModel_after_insert, countKey_insertModel]
          | err =>
            exfalso
            unfold loadModel at hok
            rw [hl] at hok
            simp [hesp, hinst, hc, hn] at hok
          | timeout =>
            exfalso
            unfold loadModel at hok
            rw [hl] at hok
            simp [hesp, hinst, hc, hn] at hok
      · cases hn : env.netLoad id with
        | ok m =>
          have hr1 : loadModel env s0 id = ⟨.ok (), insertModel s0 id m, 1⟩ := by
            unfold loadModel
            rw [hl]
            simp [hesp, hinst, hn]
          simp [hr1, loadModel_after_insert, countKey_insertModel]
        | err =>
          exfalso
          unfold loadModel at hok
          rw [hl] at hok
          simp [hesp, hinst, hn] at hok
        | timeout =>
          exfalso
          unfold loadModel at hok
          rw [hl] at hok
          simp [hesp, hinst, hn] at hok

/-- Witness for the amended C7: a fresh Kokoro download succeeds on the first
call; the second call is a no-op with zero additional loads and one registry
entry. -/
theorem load_idempotent_after_success_witness :
    (loadModel ⟨fun _ => none, fun _ => .ok (.onnx 7)⟩ sysState0 "hexgrad/Kokoro-82M").res =
        .ok () ∧
    (loadModel ⟨fun _ => none, fun _ => .ok (.onnx 7)⟩
      (loadModel ⟨fun _ => none, fun _ => .ok (.onnx 7)⟩ sysState0 "hexgrad/Kokoro-82M").st
      "hexgrad/Kokoro-82M").loads = 0 := by
  have h := load_idempotent_after_success ⟨fun _ => none, fun _ => .ok (.onnx 7)⟩
    sysState0 "hexgrad/Kokoro-82M" (by simp [sysState0]) (by with_unfolding_all rfl)
  exact ⟨by with_unfolding_all rfl, h.2.1⟩

/-- Claim C8: the waveform is looked up under the names `audio`, `output`,
`waveform`, `mel`, `logits` in exactly that priority order, the first present
name being used; when none of the five is present the result is the
descriptive error enumerating the names actually available. -/
theorem extractAudioOutput_priority_order (outputs : List (String × OrtValue)) :
    (∀ v, outputs.lookup "audio" = some v →
      extractAudioOutput outputs = extractTensorF32 v) ∧
    (outputs.lookup "audio" = none → ∀ v, outputs.lookup "output" = some v →
      extractAudioOutput outputs = extractTensorF32 v) ∧
    (outputs.lookup "audio" = none → outputs.lookup "output" = none →
      ∀ v, outputs.lookup "waveform" = some v →
      extractAudioOutput outputs = extractTensorF32 v) ∧
    (outputs.lookup "audio" = none → outputs.lookup "output" = none →
      outputs.lookup "waveform" = none → ∀ v, outputs.lookup "mel" = some v →
      extractAudioOutput outputs = extractTensorF32 v) ∧
    (outputs.lookup "audio" = none → outputs.lookup "output" = none →
      outputs.lookup "waveform" = none → outputs.lookup "mel" = none →
      ∀ v, outputs.lookup "logits" = some v →
      extractAudioOutput outputs = extractTensorF32 v) ∧
    (outputs.lookup "audio" = none → outputs.lookup "output" = none →
      outputs.lookup "waveform" = none → outputs.lookup "mel" = none →
      outputs.lookup "logits" = none →
      extractAudioOutput outputs = .error (noAudioFoundMsg (outputs.map Prod.fst))) := by
  refine ⟨?_, ?_, ?_, ?_, ?_, ?_⟩
  · intro v h
    simp [extractAudioOutput, h]
  · intro h1 v h
    simp [extractAudioOutput, h1, h]
  · intro h1 h2 v h
    simp [extractAudioOutput, h1, h2, h]
  · intro h1 h2 h3 v h
    simp [extractAudioOutput, h1, h2, h3, h]
  · intro h1 h2 h3 h4 v h
    simp [extractAudioOutput, h1, h2, h3, h4, h]
  · intro h1 h2 h3 h4 h5
    simp [extractAudioOutput, h1, h2, h3, h4, h5]

/-- Witness for C8: an output collection exposing only `mel` (with `audio`,
`output` and `waveform` absent) is extracted through the `mel` entry. -/
theorem extractAudioOutput_priority_order_witness :
    extractAudioOutput [("mel", OrtValue.tensorF32 [F32.fin 2])] = .ok [F32.fin 2] := by
  have h := (extractAudioOutput_priority_order [("mel", OrtValue.tensorF32 [F32.fin 2])]).2.2.2.1
    rfl rfl rfl (OrtValue.tensorF32 [F32.fin 2]) rfl
  rw [h]
  rfl

theorem filterMap_range_eq_map_of_all_some {α : Type} (m : ℕ) (f : ℕ → Option α) (g : ℕ → α)
    (h : ∀ i, i < m → f i = some (g i)) :
    (List.range m).filterMap f = (List.range m).map g := by
  induction m with
  | zero => simp
  | succ k ih =>
    rw [List.range_succ, List.filterMap_append, List.map_append,
      ih (fun i hi => h i (Nat.lt_succ_of_lt hi))]
    simp [h k (Nat.lt_succ_self k)]

/-- Claim C9: the inline post-processor with speed = 2.0 succeeds and performs
nearest-neighbor decimation: the output has exactly `⌊N/2⌋` samples, and the
`i`-th output sample is the input sample at index `2*i`.  (The length bound
reflects that a Rust buffer holds at most `usize::MAX` samples.) -/
theorem speed_two_nearest_neighbor_decimation (pow10 : F32 → F32) (l : List F32)
    (hlen : l.length < 2 ^ 64) :
    (applyAudioModifications pow10 l ⟨none, some (.fin 2), none⟩).length = l.length / 2 ∧
    ∀ i, i < l.length / 2 →
      (applyAudioModifications pow10 l ⟨none, some (.fin 2), none⟩)[i]? = l[2 * i]? := by
  have hcond : ((F32.fin 2).sub (F32.fin 1)).abs.gtQ (1 / 100) = true := by
    norm_num [F32.sub, F32.abs, F32.gtQ]
  have hdiv : ((F32.fin (l.length : ℚ)).div (F32.fin 2)) = F32.fin ((l.length : ℚ) / 2) := by
    norm_num [F32.div]
  have hnewLen : (F32.fin ((l.length : ℚ) / 2)).toUsize = l.length / 2 := by
    rcases Nat.eq_zero_or_pos l.length with h0 | hpos
    · rw [h0]
      norm_num [F32.toUsize]
    · have hq : ¬((l.length : ℚ) / 2 ≤ 0) := by
        push_neg
        positivity
      have hfloor : ⌊(l.length : ℚ) / 2⌋ = (l.length : ℤ) / 2 := by
        have h2 := Rat.floor_intCast_div_natCast (l.length : ℤ) 2
        push_cast at h2
        exact h2
      have htn : (⌊(l.length : ℚ) / 2⌋).toNat = l.length / 2 := by
        rw [hfloor]
        omega
      simp only [F32.toUsize, hq, if_false, htn]
      exact Nat.min_eq_left (by omega)
  have hsrc : ∀ i, i < l.length / 2 →
      ((F32.fin (i : ℚ)).mul (F32.fin 2)).toUsize = 2 * i := by
    intro i hi
    have hmul : (F32.fin (i : ℚ)).mul (F32.fin 2) = F32.fin (((2 * i : ℕ) : ℚ)) := by
      simp [F32.mul]
      ring
    rw [hmul]
    rcases Nat.eq_zero_or_pos i with h0 | hpos
    · rw [h0]
      norm_num [F32.toUsize]
    · have hq : ¬(((2 * i : ℕ) : ℚ) ≤ 0) := by
        push_neg
        positivity
      simp only [F32.toUsize, hq, if_false, Int.floor_natCast, Int.toNat_natCast]
      exact Nat.min_eq_left (by omega)
  have happ : applyAudioModifications pow10 l ⟨none, some (.fin 2), none⟩ =
      (List.range (l.length / 2)).filterMap (fun (i : ℕ) =>
        if ((F32.fin (i : ℚ)).mul (F32.fin 2)).toUsize < l.length then
          l[((F32.fin (i : ℚ)).mul (F32.fin 2)).toUsize]? else none) := by
    simp only [applyAudioModifications, hcond, if_true, hdiv, hnewLen]
  have hallsome : ∀ i, i < l.length / 2 →
      (if ((F32.fin (i : ℚ)).mul (F32.fin 2)).toUsize < l.length then
        l[((F32.fin (i : ℚ)).mul (F32.fin 2)).toUsize]? else none) =
      some ((l[2 * i]?).getD (.fin 0)) := by
    intro i hi
    rw [hsrc i hi]
    have h2i : 2 * i < l.length := by omega
    rw [if_pos h2i, List.getElem?_eq_getElem h2i]
    simp
  constructor
  · rw [happ, filterMap_range_eq_map_of_all_some _ _ _ hallsome]
    simp
  · intro i hi
    rw [happ, filterMap_range_eq_map_of_all_some _ _ _ hallsome]
    rw [List.getElem?_map, List.getElem?_range hi]
    have h2i : 2 * i < l.length := by omega
    rw [List.getElem?_eq_getElem h2i]
    simp [List.getElem?_eq_getElem h2i]

/-- Witness for C9 on a concrete 5-sample buffer: speed 2.0 yields 2 samples,
the second being the input at index 2. -/
theorem speed_two_nearest_neighbor_decimation_witness :
    (applyAudioModifications (fun _ => F32.fin 1)
      [F32.fin 1, F32.fin 2, F32.fin 3, F32.fin 4, F32.fin 5]
      ⟨none, some (.fin 2), none⟩).length = 2 ∧
    (applyAudioModifications (fun _ => F32.fin 1)
      [F32.fin 1, F32.fin 2, F32.fin 3, F32.fin 4, F32.fin 5]
      ⟨none, some (.fin 2), none⟩)[1]? = some (F32.fin 3) := by
  have h := speed_two_nearest_neighbor_decimation (fun _ => F32.fin 1)
    [F32.fin 1, F32.fin 2, F32.fin 3, F32.fin 4, F32.fin 5] (by norm_num)
  refine ⟨h.1, ?_⟩
  rw [h.2 1 (by norm_num)]
  rfl

/-- Claim C2 amended: on the ONNX model path, `synthesize` rejects
whitespace-only/empty text with the empty-text `ValidationError`, and
non-empty text longer than 1000 bytes with the "too long" `ValidationError`,
in each case before any tokenization or inference occurs (the result is this
error for every tokenizer and every inference function).  The fallback
synthesizer performs no such validation (see its counterexample). -/
theorem onnx_text_validation (tokenize : String → Option (List ℕ))
    (infer : List ℤ → List F32 → F32 → Except String (List F32))
    (pow10 : F32 → F32) (text voiceId : String) (options : Option SynthesizeOptions) :
    ((trimRust text).isEmpty = true →
      onnxSynthesize tokenize infer pow10 text voiceId options =
        .error "Text input cannot be empty") ∧
    ((trimRust text).isEmpty = false → 1000 < text.utf8ByteSize →
      onnxSynthesize tokenize infer pow10 text voiceId options =
        .error "Text too long (max 1000 characters)") := by
  constructor
  · intro h
    simp [onnxSynthesize, h]
  · intro h1 h2
    simp [onnxSynthesize, h1, h2]

set_option maxRecDepth 10000 in
/-- Witness for the amended C2: empty text and a 1001-byte text are rejected
with the two validation errors on the ONNX path. -/
theorem onnx_text_validation_witness :
    onnxSynthesize (fun _ => some [1]) (fun _ _ _ => .ok [F32.fin 0]) (fun _ => F32.fin 1)
      "" "af" none = .error "Text input cannot be empty" ∧
    onnxSynthesize (fun _ => some [1]) (fun _ _ _ => .ok [F32.fin 0]) (fun _ => F32.fin 1)
      (String.mk (List.replicate 1001 'a')) "af" none =
      .error "Text too long (max 1000 characters)" := by
  constructor
  · exact (onnx_text_validation _ _ _ "" "af" none).1 (by with_unfolding_all rfl)
  · exact (onnx_text_validation _ _ _ (String.mk (List.replicate 1001 'a')) "af" none).2
      (by with_unfolding_all rfl) (by with_unfolding_all decide)

/-- Claim C6: the inference adapter validates its inputs and returns an error
without running inference when a check fails.  Part one: in
`try_kokoro_inference`, an invalid speed (non-finite or outside `(0, 3]`), an
empty token list, a style vector without exactly 256 entries, or a non-finite
style entry each produce an error that is the same for every inference
function (so inference is never invoked).  Part two: in `synthesize`, a token
id outside `[0, 100000]` produces the `Invalid token value` error for every
inference function, before the adapter is reached. -/
theorem kokoro_inference_validates_inputs :
    (∀ (tokens : List ℤ) (style : List F32) (options : Option SynthesizeOptions),
      ((!(effectiveSpeed options).isFinite || (effectiveSpeed options).leQ 0 ||
          (effectiveSpeed options).gtQ 3) = true ∨
        tokens = [] ∨ style.length ≠ 256 ∨ (∃ v ∈ style, v.isFinite = false)) →
      ∃ e, ∀ infer, tryKokoroInferenceWith infer tokens style options = .error e) ∧
    (∀ (tokenize : String → Option (List ℕ)) (pow10 : F32 → F32)
      (text voiceId : String) (options : Option SynthesizeOptions)
      (tokens : List ℕ) (t : ℤ),
      tokenize (trimRust text) = some tokens →
      (trimRust text).isEmpty = false →
      text.utf8ByteSize ≤ 1000 →
      tokens.isEmpty = false →
      tokens.length ≤ 512 →
      (tokens.map (fun n => (n : ℤ))).find?
        (fun v => decide (v < 0) || decide (100000 < v)) = some t →
      ∀ infer, onnxSynthesize tokenize infer pow10 text voiceId options =
        .error ("Invalid token value: " ++ toString t)) := by
  constructor
  · intro tokens style options hbad
    by_cases hsp : (!(effectiveSpeed options).isFinite || (effectiveSpeed options).leQ 0 ||
        (effectiveSpeed options).gtQ 3) = true
    · refine ⟨"Speed must be finite and between 0.0 and 3.0, got " ++
        (effectiveSpeed options).describe, fun infer => ?_⟩
      simp only [tryKokoroInferenceWith, hsp, if_true]
    · rw [Bool.not_eq_true] at hsp
      by_cases htk : tokens.isEmpty = true
      · refine ⟨"Empty token sequence", fun infer => ?_⟩
        simp only [tryKokoroInferenceWith, hsp, htk, Bool.false_eq_true, if_false, if_true]
      · rw [Bool.not_eq_true] at htk
        by_cases hsl : style.length = 256
        · cases hfi : style.findIdx? (fun v => !v.isFinite) with
          | some i =>
            refine ⟨"Style vector contains non-finite value at index " ++ toString i,
              fun infer => ?_⟩
            simp only [tryKokoroInferenceWith, hsp, htk, hsl, Bool.false_eq_true, if_false,
              beq_self_eq_true, Bool.not_true, hfi]
          | none =>
            exfalso
            rcases hbad with h | h | h | ⟨v, hv, hvf⟩
            · rw [hsp] at h
              exact Bool.false_ne_true h
            · rw [h] at htk
              simp at htk
            · exact h hsl
            · have hall := List.findIdx?_eq_none_iff.mp hfi v hv
              rw [hvf] at hall
              simp at hall
        · refine ⟨"Style vector must be 256 dimensions, got " ++ toString style.length,
            fun infer => ?_⟩
          have hbeq : (style.length == 256) = false := by
            simp [hsl]
          simp only [tryKokoroInferenceWith, hsp, htk, hbeq, Bool.false_eq_true, if_false,
            Bool.not_false, if_true]
  · intro tokenize pow10 text voiceId options tokens t htok hempty hbyte htkempty htlen hfind
    intro infer
    have hlt : ¬(1000 < text.utf8ByteSize) := Nat.not_lt.mpr hbyte
    have hlt2 : ¬(512 < tokens.length) := Nat.not_lt.mpr htlen
    simp only [onnxSynthesize, hempty, Bool.false_eq_true, if_false, hlt, htok, htkempty,
      hlt2, hfind, if_true]

/-- Witness for C6: an empty token list makes the adapter fail (uniformly in
the inference function, here instantiated concretely). -/
theorem kokoro_inference_validates_inputs_witness :
    (tryKokoroInferenceWith (fun _ _ _ => Except.ok [F32.fin 0]) []
      (getStyleVector "af") none).isOk = false := by
  obtain ⟨e, he⟩ := kokoro_inference_validates_inputs.1 [] (getStyleVector "af") none
    (Or.inr (Or.inl rfl))
  rw [he (fun _ _ _ => Except.ok [F32.fin 0])]
  rfl

theorem inRange11_clamp11_fin (q : ℚ) : inRange11 ((F32.fin q).clamp11) := by
  refine ⟨max (-1) (min 1 q), rfl, le_max_left _ _, ?_⟩
  exact max_le (by norm_num) (min_le_left _ _)

theorem inRange11_sanitizeSample (s : F32) : inRange11 (sanitizeSample s) := by
  cases s with
  | fin q =>
    simp only [sanitizeSample, F32.isNan, F32.isInfinite, Bool.or_self, Bool.or_false]
    exact inRange11_clamp11_fin q
  | nan => exact ⟨0, rfl, by norm_num, by norm_num⟩
  | inf => exact ⟨0, rfl, by norm_num, by norm_num⟩
  | neginf => exact ⟨0, rfl, by norm_num, by norm_num⟩

theorem isFinite_exists_fin (s : F32) (h : s.isFinite = true) : ∃ q : ℚ, s = .fin q := by
  cases s with
  | fin q => exact ⟨q, rfl⟩
  | nan => simp [F32.isFinite] at h
  | inf => simp [F32.isFinite] at h
  | neginf => simp [F32.isFinite] at h

theorem applyAudioModifications_inRange (pow10 : F32 → F32) (samples : List F32)
    (opts : SynthesizeOptions) (hpow : ∀ x, (pow10 x).isFinite = true)
    (hin : ∀ s ∈ samples, inRange11 s) :
    ∀ s ∈ applyAudioModifications pow10 samples opts, inRange11 s := by
  unfold applyAudioModifications
  have hvol : ∀ s ∈ (match opts.volume with
      | some volumeDb =>
        if (volumeDb.abs).gtQ (1 / 100) then
          samples.map (fun (s : F32) => (s.mul (pow10 (volumeDb.div (.fin 20)))).clamp11)
        else samples
      | none => samples), inRange11 s := by
    cases hv : opts.volume with
    | none => exact hin
    | some volumeDb =>
      by_cases hg : (volumeDb.abs).gtQ (1 / 100) = true
      · simp only [hg, if_true]
        intro s hs
        obtain ⟨a, ha, rfl⟩ := List.mem_map.mp hs
        obtain ⟨g, hgq⟩ := isFinite_exists_fin _ (hpow (volumeDb.div (.fin 20)))
        obtain ⟨qa, hqa, _, _⟩ := hin a ha
        rw [hqa, hgq]
        simp only [F32.mul]
        exact inRange11_clamp11_fin _
      · rw [Bool.not_eq_true] at hg
        simp only [hg, Bool.false_eq_true, if_false]
        exact hin
  cases hs : opts.speed with
  | none => exact hvol
  | some speed =>
    by_cases hc : ((speed.sub (.fin 1)).abs).gtQ (1 / 100) = true
    · simp only [hc, if_true]
      intro s hsmem
      obtain ⟨i, _, hf⟩ := List.mem_filterMap.mp hsmem
      by_cases hlt : (((F32.fin (i : ℚ)).mul speed).toUsize <
          (match opts.volume with
            | some volumeDb =>
              if (volumeDb.abs).gtQ (1 / 100) then
                samples.map (fun (s : F32) => (s.mul (pow10 (volumeDb.div (.fin 20)))).clamp11)
              else samples
            | none => samples).length)
      · rw [if_pos hlt] at hf
        exact hvol s (List.getElem?_mem hf)
      · rw [if_neg hlt] at hf
        exact absurd hf (by simp)
    · rw [Bool.not_eq_true] at hc
      simp only [hc, Bool.false_eq_true, if_false]
      exact hvol

theorem applyAudioModifications_length_no_speed_change (pow10 : F32 → F32)
    (samples : List F32) (opts : SynthesizeOptions)
    (hns : optionSpeedChangeRequested (some opts) = false) :
    (applyAudioModifications pow10 samples opts).length = samples.length := by
  unfold applyAudioModifications
  have hvollen : (match opts.volume with
      | some volumeDb =>
        if (volumeDb.abs).gtQ (1 / 100) then
          samples.map (fun (s : F32) => (s.mul (pow10 (volumeDb.div (.fin 20)))).clamp11)
        else samples
      | none => samples).length = samples.length := by
    cases opts.volume with
    | none => rfl
    | some volumeDb =>
      by_cases hg : (volumeDb.abs).gtQ (1 / 100) = true
      · simp only [hg, if_true, List.length_map]
      · rw [Bool.not_eq_true] at hg
        simp only [hg, Bool.false_eq_true, if_false]
  cases hs : opts.speed with
  | none => exact hvollen
  | some speed =>
    have hc : ((speed.sub (.fin 1)).abs).gtQ (1 / 100) = false := by
      have := hns
      simp only [optionSpeedChangeRequested, hs] at this
      exact this
    simp only [hc, Bool.false_eq_true, if_false]
    exact hvollen

/-- Claim C1 amended: on the ONNX model path, every sample of a successful
`synthesize` result is finite and lies within `[-1.0, 1.0]` (given that the
computed volume gain is finite, which holds in the real-arithmetic
idealization of `10^(dB/20)`), and the returned buffer is non-empty whenever
no effective speed modification is requested.  The fallback synthesizer path
gives no such guarantee (see the C1 counterexample: empty text yields a
successful empty buffer), and an effective speed above the sanitized buffer
length can empty the ONNX result. -/
theorem onnx_synthesize_output_sanitized
    (tokenize : String → Option (List ℕ))
    (infer : List ℤ → List F32 → F32 → Except String (List F32))
    (pow10 : F32 → F32) (text voiceId : String) (options : Option SynthesizeOptions)
    (samples : List F32)
    (hpow : ∀ x, (pow10 x).isFinite = true)
    (hok : onnxSynthesize tokenize infer pow10 text voiceId options = .ok samples) :
    (∀ s ∈ samples, inRange11 s) ∧
    (optionSpeedChangeRequested options = false → samples ≠ []) := by
  unfold onnxSynthesize at hok
  split at hok
  · exact absurd hok (by simp)
  split at hok
  · exact absurd hok (by simp)
  split at hok
  · exact absurd hok (by simp)
  split at hok
  · exact absurd hok (by simp)
  split at hok
  · exact absurd hok (by simp)
  split at hok
  · exact absurd hok (by simp)
  split at hok
  · exact absurd hok (by simp)
  rename_i audioRaw htry
  split at hok
  · exact absurd hok (by simp)
  rename_i hne
  rw [Except.ok.injEq] at hok
  subst hok
  constructor
  · cases options with
    | none =>
      intro s hs
      obtain ⟨a, _, rfl⟩ := List.mem_map.mp hs
      exact inRange11_sanitizeSample a
    | some opts =>
      refine applyAudioModifications_inRange pow10 _ opts hpow ?_
      intro s hs
      obtain ⟨a, _, rfl⟩ := List.mem_map.mp hs
      exact inRange11_sanitizeSample a
  · intro hns
    have hraw : audioRaw ≠ [] := by
      intro h0
      subst h0
      simp at hne
    cases options with
    | none =>
      intro h0
      rw [List.map_eq_nil_iff] at h0
      exact hraw h0
    | some opts =>
      have hlen2 : (applyAudioModifications pow10 (audioRaw.map sanitizeSample) opts).length =
          audioRaw.length := by
        rw [applyAudioModifications_length_no_speed_change pow10 _ opts hns, List.length_map]
      show applyAudioModifications pow10 (audioRaw.map sanitizeSample) opts ≠ []
      intro h0
      rw [h0] at hlen2
      simp only [List.length_nil] at hlen2
      exact hraw (List.length_eq_zero.mp hlen2.symm)

set_option maxRecDepth 10000 in
/-- Witness for the amended C1 at a concrete successful ONNX synthesis. -/
theorem onnx_synthesize_output_sanitized_witness :
    (∀ s ∈ [F32.fin (1 / 2)], inRange11 s) ∧
    (optionSpeedChangeRequested none = false → [F32.fin (1 / 2)] ≠ ([] : List F32)) :=
  onnx_synthesize_output_sanitized (fun _ => some [5]) (fun _ _ _ => .ok [F32.fin (1 / 2)])
    (fun _ => F32.fin 1) "hi" "af" none [F32.fin (1 / 2)]
    (fun _ => rfl) (by with_unfolding_all rfl)
